import Mathlib

/-
Verification of the KCP transport engine and session/dispatch plane of
v2ray-core, as a shallow embedding in Lean 4.

Each Go function referenced by the claims is translated into an executable
Lean definition; machine integers (uint32) are modelled as `Nat` with
explicit reduction mod 2^32 where the Go arithmetic can wrap.  Stateful
code is modelled by explicit state passing.  Fallible code returns
`Except` or `Option`.
-/

/-- 2^32, the modulus of Go uint32 arithmetic. -/
def u32 : Nat := 4294967296

/-- 2^31, the sign boundary of int32. -/
def u31 : Nat := 2147483648

/-- Go uint32 subtraction `a - b` (wraps around). Arguments are reduced
mod 2^32 first, so the definition is total on `Nat`. -/
def usub (a b : Nat) : Nat := (a % u32 + u32 - b % u32) % u32

/-- `_itimediff(later, earlier)`: the uint32 difference reinterpreted as a
signed int32 (kcp.go). -/
def itimediff (later earlier : Nat) : Int :=
  let d := usub later earlier
  if d < u31 then (d : Int) else (d : Int) - (u32 : Int)

namespace KcpConn

/-- RTT estimation state of a connection
(`RoundTripInfo` in transport/internet/kcp/connection.go). -/
structure RoundTripInfo where
  variation : Nat
  srtt : Nat
  rto : Nat
  minRtt : Nat
  updatedTimestamp : Nat
  deriving Repr, DecidableEq

/-- `RoundTripInfo` as initialized by `NewConnection`:
`rto = 100`, `minRtt = config.Tti`, all other fields zero. -/
def initRoundTrip (tti : Nat) : RoundTripInfo :=
  { variation := 0, srtt := 0, rto := 100, minRtt := tti % u32, updatedTimestamp := 0 }

/-- `RoundTripInfo.Update(rtt, current)` from connection.go.  Samples above
0x7FFFFFFF are ignored.  First sample (srtt = 0) sets `srtt = rtt`,
`variation = rtt/2`; later samples use the RFC 6298 smoothing with `srtt`
floored at `minRtt`.  The stored rto is `min(raw, 10000) * 5 / 4` where
`raw = srtt + 4*variation` if `minRtt < 4*variation`, else
`raw = srtt + variation`. -/
def RoundTripInfo.update (r : RoundTripInfo) (rtt current : Nat) : RoundTripInfo :=
  if 0x7FFFFFFF < rtt then r else
  let var1 := if r.srtt = 0 then rtt / 2
    else (3 * r.variation % u32 + (if rtt < r.srtt then r.srtt - rtt else rtt - r.srtt)) % u32 / 4
  let srtt1 := if r.srtt = 0 then rtt
    else
      let s0 := (7 * r.srtt % u32 + rtt) % u32 / 8
      if s0 < r.minRtt then r.minRtt else s0
  let rto0 := if r.minRtt < 4 * var1 % u32 then (srtt1 + 4 * var1 % u32) % u32
              else (srtt1 + var1) % u32
  let rto1 := if 10000 < rto0 then 10000 else rto0
  { r with variation := var1, srtt := srtt1, rto := rto1 * 5 / 4,
           updatedTimestamp := current % u32 }

/-- Feed a sequence of (rtt, current) samples to a `RoundTripInfo`. -/
def runSamples (r : RoundTripInfo) (samples : List (Nat × Nat)) : RoundTripInfo :=
  samples.foldl (fun acc p => acc.update p.1 p.2) r

theorem clamp_mul_le (n : Nat) : (if 10000 < n then 10000 else n) * 5 / 4 ≤ 12500 := by
  split <;> omega

theorem update_rto_le (r : RoundTripInfo) (rtt current : Nat) (h : r.rto ≤ 12500) :
    (r.update rtt current).rto ≤ 12500 := by
  unfold RoundTripInfo.update
  split
  · exact h
  · exact clamp_mul_le _

end KcpConn

/-- Claim C2 (counterexample): the claim states that after each update the
stored rto equals `(srtt + max(variation*4, tti)) * 5/4` clamped into
`[minRtt, 10000]`, hence `rto ≤ 10000`.  On the code, with `tti = 10` and a
single RTT sample of 10000 ms, the update clamps the raw value at 10000
*before* the 5/4 multiplication, storing `rto = 12500 > 10000`, while the
claimed formula would give 10000. -/
theorem C2_counterexample :
    ((KcpConn.initRoundTrip 10).update 10000 0).rto = 12500 ∧ ¬ (12500 ≤ 10000) := by
  constructor
  · rfl
  · decide

/-- Claim C2 (amended): first sample sets `srtt = rtt`, `variation = rtt/2`;
later samples set `variation = (3*variation + |rtt - srtt|)/4` and
`srtt = (7*srtt + rtt)/8` floored at `minRtt`; but the stored rto equals
`min(srtt + (4*variation if minRtt < 4*variation else variation), 10000) * 5/4`
— clamped at 10000 before multiplying by 5/4 and never clamped below at
`minRtt` — so after any sequence of samples `rto ≤ 12500` (and, by the
counterexample, the bounds `rto ≤ 10000` and `minRtt ≤ rto` do not hold). -/
theorem C2_rto_bounded (tti : Nat) (samples : List (Nat × Nat)) :
    (KcpConn.runSamples (KcpConn.initRoundTrip tti) samples).rto ≤ 12500 := by
  have h : ∀ (l : List (Nat × Nat)) (r : KcpConn.RoundTripInfo), r.rto ≤ 12500 →
      (KcpConn.runSamples r l).rto ≤ 12500 := by
    intro l
    induction l with
    | nil => intro r h; exact h
    | cons p rest ih =>
        intro r h
        exact ih _ (KcpConn.update_rto_le r p.1 p.2 h)
  exact h samples _ (by simp [KcpConn.initRoundTrip])

namespace Ray

/-- Capacity of a Stream's buffer channel (`bufferSize` in ray.go). -/
def bufferSize : Nat := 128

/-- A `Stream` (ray.go): a `closed` flag and a bounded channel of buffers.
The channel is modelled as `Option (List Nat)`: `some l` is the live
channel holding the pending buffers (identified by ids), `none` is the
dereferenced (`nil`) channel after `Release`.  The `closed` flag and the
closedness of the Go channel always agree in ray.go, so one flag models
both. -/
structure Stream where
  closed : Bool
  buffer : Option (List Nat)
  deriving Repr, DecidableEq

/-- `NewStream()`: open, empty channel. -/
def newStream : Stream := { closed := false, buffer := some [] }

/-- Result of `Stream.Read()`: a buffer, EOF, or a blocked receive
(open empty channel). -/
inductive ReadResult where
  | buf (b : Nat)
  | eof
  | blocked
  deriving Repr, DecidableEq

/-- `Stream.Read()` from ray.go: nil channel yields EOF; a closed drained
channel yields EOF; a pending buffer is received in FIFO order; an open
empty channel blocks. -/
def Stream.read (s : Stream) : ReadResult × Stream :=
  match s.buffer with
  | none => (.eof, s)
  | some [] => if s.closed then (.eof, s) else (.blocked, s)
  | some (b :: rest) => (.buf b, { s with buffer := some rest })

/-- Result of `Stream.Write(data)`: success, the `io.EOF` error, or a
blocked send (channel full). -/
inductive WriteResult where
  | ok
  | eofErr
  | blocked
  deriving Repr, DecidableEq

/-- `Stream.Write(data)` from ray.go: returns `io.EOF` if the stream is
closed or the channel is nil (checked in that order); otherwise sends on
the channel, blocking while the channel holds `bufferSize` buffers. -/
def Stream.write (s : Stream) (data : Nat) : WriteResult × Stream :=
  if s.closed then (.eofErr, s)
  else match s.buffer with
    | none => (.eofErr, s)
    | some l =>
        if l.length < bufferSize then (.ok, { s with buffer := some (l ++ [data]) })
        else (.blocked, s)

/-- `Stream.Close()` from ray.go: no-op when already closed; otherwise sets
the flag and closes the channel (pending buffers stay receivable). -/
def Stream.close (s : Stream) : Stream :=
  if s.closed then s else { s with closed := true }

/-- `Stream.Release()` from ray.go: no-op when the channel is already nil;
otherwise closes the stream, drains the channel releasing every pending
buffer, and sets the channel to nil.  Returns the new stream plus the list
of buffer ids on which `Release()` was called. -/
def Stream.release (s : Stream) : Stream × List Nat :=
  match s.buffer with
  | none => (s, [])
  | some l => ({ closed := true, buffer := none }, l)

/-- One user-visible operation on a Stream. -/
inductive SOp where
  | read
  | write (data : Nat)
  | close
  | release
  deriving Repr, DecidableEq

/-- State effect of one operation (results discarded). -/
def Stream.apply (s : Stream) : SOp → Stream
  | .read => (s.read).2
  | .write d => (s.write d).2
  | .close => s.close
  | .release => (s.release).1

/-- Apply a sequence of operations. -/
def Stream.run (s : Stream) (ops : List SOp) : Stream :=
  ops.foldl Stream.apply s

theorem apply_closed (s : Stream) (op : SOp) (h : s.closed = true) :
    (s.apply op).closed = true := by
  cases op <;>
    simp only [Stream.apply, Stream.read, Stream.write, Stream.close, Stream.release]
  · rcases hb : s.buffer with _ | l
    · simpa [hb] using h
    · cases l <;> simp [hb, h]
  · simp [h]
  · simp [h]
  · rcases hb : s.buffer with _ | l <;> simp [hb, h]

theorem run_closed (s : Stream) (ops : List SOp) (h : s.closed = true) :
    (s.run ops).closed = true := by
  induction ops generalizing s with
  | nil => exact h
  | cons op rest ih => exact ih _ (apply_closed s op h)

theorem apply_buffer_none (s : Stream) (op : SOp) (h : s.buffer = none) :
    (s.apply op).buffer = none := by
  have hc : s.closed = true ∨ s.closed = false := by
    cases s.closed <;> simp
  cases op <;>
    simp only [Stream.apply, Stream.read, Stream.write, Stream.close, Stream.release] <;>
    rcases hc with hc | hc <;> simp [h, hc]

theorem run_buffer_none (s : Stream) (ops : List SOp) (h : s.buffer = none) :
    (s.run ops).buffer = none := by
  induction ops generalizing s with
  | nil => exact h
  | cons op rest ih => exact ih _ (apply_buffer_none s op h)

theorem close_buffer (s : Stream) : (s.close).buffer = s.buffer := by
  simp only [Stream.close]
  split <;> rfl

theorem release_snd (s : Stream) : (s.release).2 = s.buffer.getD [] := by
  rcases h : s.buffer with _ | l <;> simp [Stream.release, h]

theorem release_fst_buffer (s : Stream) : ((s.release).1).buffer = none := by
  rcases h : s.buffer with _ | l <;> simp [Stream.release, h]

theorem write_buffer_none (s : Stream) (data : Nat) (h : s.buffer = none) :
    (s.write data).1 = .eofErr := by
  have hc : s.closed = true ∨ s.closed = false := by
    cases s.closed <;> simp
  rcases hc with hc | hc <;> simp [Stream.write, h, hc]

theorem read_buffer_none (s : Stream) (h : s.buffer = none) :
    (s.read).1 = .eof := by
  simp [Stream.read, h]

end Ray

/-- Claim C7: after `Close()`, every subsequent `Write` returns an error
(the stream stays closed under any further operations, and `Write` on a
closed stream returns `io.EOF`); after `Release()`, every buffer pending in
the stream has been released (the release log is exactly the pending list)
and every subsequent `Read` returns EOF (the channel stays nil under any
further operations, and `Read` on a nil channel returns EOF). -/
theorem C7_close_write_release_read (s : Ray.Stream) (ops : List Ray.SOp) (data : Nat) :
    (((s.close).run ops).write data).1 = .eofErr ∧
    (s.release).2 = s.buffer.getD [] ∧
    (((s.release).1.run ops).read).1 = .eof := by
  refine ⟨?_, Ray.release_snd s, ?_⟩
  · have hclosed : ((s.close).run ops).closed = true := by
      apply Ray.run_closed
      simp only [Ray.Stream.close]
      split <;> simp_all
    simp [Ray.Stream.write, hclosed]
  · exact Ray.read_buffer_none _
      (Ray.run_buffer_none _ _ (Ray.release_fst_buffer s))

/-- Claim C10: `Stream.Close` and `Stream.Release` are idempotent and safe
to combine: a second `Close` is a no-op, a second `Release` is a no-op and
releases nothing, `Release` after `Close` still drains and releases all
pending buffers exactly once (the second drain releases nothing), and
`Write`/`Read` on an already-released stream return the EOF error instead
of faulting on the nil channel. -/
theorem C10_close_release_idempotent (s : Ray.Stream) (data : Nat) :
    (s.close).close = s.close ∧
    ((s.release).1.release).1 = (s.release).1 ∧
    ((s.release).1.release).2 = [] ∧
    ((s.close).release).2 = s.buffer.getD [] ∧
    (((s.close).release).1.release).2 = [] ∧
    (((s.release).1.write data)).1 = .eofErr ∧
    (((s.release).1.read)).1 = .eof := by
  refine ⟨?_, ?_, ?_, ?_, ?_, ?_, ?_⟩
  · simp only [Ray.Stream.close]
    split <;> simp_all
  · have h := Ray.release_fst_buffer s
    generalize (s.release).1 = t at h ⊢
    simp [Ray.Stream.release, h]
  · rw [Ray.release_snd]
    simp [Ray.release_fst_buffer s]
  · rw [Ray.release_snd, Ray.close_buffer]
  · rw [Ray.release_snd]
    simp [Ray.release_fst_buffer]
  · exact Ray.write_buffer_none _ _ (Ray.release_fst_buffer s)
  · exact Ray.read_buffer_none _ (Ray.release_fst_buffer s)

namespace ProxyRegistry

/-- Errors of proxy/internal/handler_cache.go. -/
inductive RegErr where
  | proxyNotFound
  | nameExists
  | badConfiguration
  deriving Repr, DecidableEq

/-- A name-to-factory map (`inboundFactories` / `outboundFactories`).
Creators are identified by ids; a Go map with string keys is modelled as an
association list looked up by key. -/
def Factories := List (String × Nat)

/-- `RegisterInboundHandlerCreator(name, creator)`: fails with the
name-exists error when the name is present, otherwise inserts. -/
def registerInboundHandlerCreator (m : Factories) (name : String) (creator : Nat) :
    Except RegErr Factories :=
  if (m.lookup name).isSome then .error .nameExists
  else .ok ((name, creator) :: m)

/-- `RegisterOutboundHandlerCreator(name, creator)`: same logic on the
outbound map. -/
def registerOutboundHandlerCreator (m : Factories) (name : String) (creator : Nat) :
    Except RegErr Factories :=
  if (m.lookup name).isSome then .error .nameExists
  else .ok ((name, creator) :: m)

/-- `CreateInboundConnectionHandler(name, ...)`: looks the name up in the
inbound map and fails with `ErrorProxyNotFound` when absent; otherwise
invokes the creator (the config-parsing branch is outside this model and
the created handler is represented by the creator id). -/
def createInboundConnectionHandler (m : Factories) (name : String) :
    Except RegErr Nat :=
  match m.lookup name with
  | none => .error .proxyNotFound
  | some creator => .ok creator

/-- `CreateOutboundConnectionHandler(name, ...)`: looks the name up in the
outbound map; when absent the source returns `ErrorNameExists` (not
`ErrorProxyNotFound`). -/
def createOutboundConnectionHandler (m : Factories) (name : String) :
    Except RegErr Nat :=
  match m.lookup name with
  | none => .error .nameExists
  | some creator => .ok creator

end ProxyRegistry

/-- Claim C8 (code bug): registering a duplicate name fails with the
name-exists error on both maps and leaves the map unchanged (registration
returns an error, no insertion happens), and `CreateInboundConnectionHandler`
on an unregistered name fails with the proxy-not-found error; but
`CreateOutboundConnectionHandler` on an unregistered name returns
`ErrorNameExists` ("Proxy with the same name already exists.") instead of
`ErrorProxyNotFound` — an evident copy-paste slip, contradicted by the
error's own message. -/
theorem C8_registry_errors :
    ProxyRegistry.registerInboundHandlerCreator [("socks", 1)] "socks" 2
      = .error .nameExists ∧
    ProxyRegistry.registerOutboundHandlerCreator [("vmess", 3)] "vmess" 4
      = .error .nameExists ∧
    ProxyRegistry.createInboundConnectionHandler [("socks", 1)] "vmess"
      = .error .proxyNotFound ∧
    ProxyRegistry.createOutboundConnectionHandler [("vmess", 3)] "socks"
      = .error .nameExists ∧
    ProxyRegistry.RegErr.nameExists ≠ ProxyRegistry.RegErr.proxyNotFound := by
  refine ⟨rfl, rfl, rfl, rfl, ?_⟩
  decide

namespace MergeReader

/-- Modelled from the spec: `alloc.Buffer` (not under src/) — a byte slice
with capacity; `Append` copies in up to the free space and returns the
number of bytes appended, `SliceFrom(n)` drops the first n bytes, `IsFull`
and `IsEmpty` compare length against capacity and zero. -/
structure Buffer where
  data : List Nat
  cap : Nat
  deriving Repr, DecidableEq

def Buffer.isFull (b : Buffer) : Bool := b.cap ≤ b.data.length

def Buffer.isEmpty (b : Buffer) : Bool := b.data.isEmpty

/-- Append as many of `bs` as fit; returns the new buffer and the count
appended. -/
def Buffer.append (b : Buffer) (bs : List Nat) : Buffer × Nat :=
  let taken := bs.take (b.cap - b.data.length)
  ({ b with data := b.data ++ taken }, taken.length)

def Buffer.sliceFrom (b : Buffer) (n : Nat) : Buffer :=
  { b with data := b.data.drop n }

/-- `MergingReader` (common/buf/merge_reader.go).  The inner reader and the
zero-timeout reader are modelled by the streams of results their successive
calls return: `some b` is a successful read, `none` an error. -/
structure MergingReader where
  leftover : Option Buffer
  mainReads : List (Option Buffer)
  timeoutReads : List (Option Buffer)
  hasTimeoutReader : Bool
  deriving Repr, DecidableEq

/-- `MergingReader.Read()` from merge_reader.go.  Note the source returns
`r.leftover` without clearing the field. -/
def MergingReader.read (r : MergingReader) : Option Buffer × MergingReader :=
  match r.leftover with
  | some b => (some b, r)
  | none =>
    match r.mainReads with
    | [] => (none, r)
    | none :: rest => (none, { r with mainReads := rest })
    | some b :: rest =>
      let r1 := { r with mainReads := rest }
      if b.isFull then (some b, r1)
      else if !r1.hasTimeoutReader then (some b, r1)
      else match r1.timeoutReads with
        | [] => (some b, r1)
        | none :: trest => (some b, { r1 with timeoutReads := trest })
        | some b2 :: trest =>
          let r2 := { r1 with timeoutReads := trest }
          let app := b.append b2.data
          let b2s := b2.sliceFrom app.2
          if b2s.isEmpty then (some app.1, r2)
          else (some app.1, { r2 with leftover := some b2s })

/-- The merging reader after the first `Read` of the failing scenario: the
inner reader returned 3 bytes into a 4-byte buffer, the zero-timeout read
returned 3 more bytes, of which one filled the buffer and two became the
leftover. -/
def bugState : MergingReader :=
  (MergingReader.read
    { leftover := none,
      mainReads := [some { data := [1, 2, 3], cap := 4 }],
      timeoutReads := [some { data := [4, 5, 6], cap := 8 }],
      hasTimeoutReader := true }).2

end MergeReader

/-- Claim C9 (code bug): `MergingReader.Read` never clears `r.leftover`, so
once a leftover exists the same buffer — here holding bytes 5 and 6 — is
returned by every subsequent `Read`, violating "no byte is returned twice":
two successive reads after the merge both return the leftover buffer, and
the state (hence the inner reader's position) never advances. -/
theorem C9_leftover_returned_twice :
    MergeReader.bugState.leftover = some { data := [5, 6], cap := 8 } ∧
    (MergeReader.bugState.read).1 = some { data := [5, 6], cap := 8 } ∧
    ((MergeReader.bugState.read).2.read).1 = some { data := [5, 6], cap := 8 } ∧
    (MergeReader.bugState.read).2 = MergeReader.bugState := by
  refine ⟨rfl, rfl, rfl, rfl⟩

namespace KcpConn

/-- Connection states (`State` in connection.go): Active=0, ReadyToClose=1,
PeerClosed=2, Terminating=3, PeerTerminating=4, Terminated=5. -/
inductive CState where
  | active
  | readyToClose
  | peerClosed
  | terminating
  | peerTerminating
  | terminated
  deriving Repr, DecidableEq

/-- KCP commands carried by CmdOnly segments. -/
inductive Command where
  | ping
  | terminate
  deriving Repr, DecidableEq

/-- An incoming segment, reduced to what drives the connection state
machine: its kind and whether its option byte carries
`SegmentOptionClose`.  Payload and window fields act on the workers, which
hold no connection state. -/
inductive Seg where
  | data (optClose : Bool)
  | ack (optClose : Bool)
  | cmd (c : Command) (optClose : Bool)
  deriving Repr, DecidableEq

/-- The state-machine-relevant fields of a `Connection` (connection.go).
Times are milliseconds since connection start, held in uint32 fields.
`pingInterval` is the ping updater's `interval` in ms; `rcvClosed` and
`sndClosed` record `receivingWorker.CloseRead()` /
`sendingWorker.CloseWrite()` having been called. -/
structure Conn where
  state : CState
  stateBeginTime : Nat
  lastIncomingTime : Nat
  lastPingTime : Nat
  pingInterval : Nat
  rcvClosed : Bool
  sndClosed : Bool
  deriving Repr, DecidableEq

/-- A `Connection` as built by `NewConnection`: Active, zero clocks, and a
ping updater created with interval 5000 ms. -/
def initConn : Conn :=
  { state := .active, stateBeginTime := 0, lastIncomingTime := 0,
    lastPingTime := 0, pingInterval := 5000, rcvClosed := false, sndClosed := false }

/-- `Connection.SetState(state)` from connection.go: stores the state and
the current elapsed time (the source re-reads the clock; the model passes
the caller's time), then runs the per-state actions — ReadyToClose
closes reading; PeerClosed closes writing; Terminating/Terminated close
both and drop the ping updater interval to one second; PeerTerminating
closes writing and drops the interval to one second. -/
def Conn.setState (c : Conn) (s : CState) (current : Nat) : Conn :=
  let base := { c with state := s, stateBeginTime := current % u32 }
  match s with
  | .active => base
  | .readyToClose => { base with rcvClosed := true }
  | .peerClosed => { base with sndClosed := true }
  | .terminating => { base with rcvClosed := true, sndClosed := true, pingInterval := 1000 }
  | .peerTerminating => { base with sndClosed := true, pingInterval := 1000 }
  | .terminated => { base with rcvClosed := true, sndClosed := true, pingInterval := 1000 }

/-- `Connection.Close()` from connection.go: an error (no transition) in
ReadyToClose, Terminating and Terminated; otherwise transitions on the
state read at entry. -/
def Conn.close (c : Conn) (current : Nat) : Conn :=
  match c.state with
  | .active => c.setState .readyToClose current
  | .peerClosed => c.setState .terminating current
  | .peerTerminating => c.setState .terminated current
  | _ => c

/-- `Connection.OnPeerClosed()` (reached through `HandleOption` when a
segment carries `SegmentOptionClose`). -/
def Conn.onPeerClosed (c : Conn) (current : Nat) : Conn :=
  match c.state with
  | .readyToClose => c.setState .terminating current
  | .active => c.setState .peerClosed current
  | _ => c

/-- `Connection.HandleOption(opt)`: acts only on the Close bit. -/
def Conn.handleOption (c : Conn) (optClose : Bool) (current : Nat) : Conn :=
  if optClose then c.onPeerClosed current else c

/-- The `CommandTerminate` case of `Connection.Input`. -/
def Conn.termCmd (c : Conn) (current : Nat) : Conn :=
  match c.state with
  | .active => c.setState .peerTerminating current
  | .peerClosed => c.setState .peerTerminating current
  | .readyToClose => c.setState .terminating current
  | .terminating => c.setState .terminated current
  | _ => c

/-- Per-segment processing of `Connection.Input`: the option byte is
handled first; a Terminate command then drives the close handshake.  The
workers' segment processing does not touch the modelled fields. -/
def Conn.inputSeg (current : Nat) (c : Conn) (seg : Seg) : Conn :=
  match seg with
  | .data o => c.handleOption o current
  | .ack o => c.handleOption o current
  | .cmd .ping o => c.handleOption o current
  | .cmd .terminate o => (c.handleOption o current).termCmd current

/-- `Connection.Input(data)`: stores the current time in
`lastIncomingTime`, then processes each parsed segment (all segments are
assumed to carry the connection's conversation id; a mismatch would abort
the loop). -/
def Conn.input (c : Conn) (current : Nat) (segs : List Seg) : Conn :=
  segs.foldl (Conn.inputSeg current) { c with lastIncomingTime := current % u32 }

/-- `Connection.Ping(current, cmd)`: emits a CmdOnly segment (with the
Close option when in ReadyToClose) and records `lastPingTime`. -/
def Conn.ping (c : Conn) (current : Nat) : Conn :=
  { c with lastPingTime := current % u32 }

/-- The idle check at the top of `Connection.flush`: an Active connection
with no incoming traffic for 30000 ms or more is closed. -/
def Conn.flushIdle (c : Conn) (current : Nat) : Conn :=
  if c.state = .active ∧ 30000 ≤ usub current c.lastIncomingTime
  then c.close current else c

/-- The drain check of `Connection.flush`: ReadyToClose with an empty
sending buffer advances to Terminating. -/
def Conn.flushEmpty (c : Conn) (current : Nat) (sendingEmpty : Bool) : Conn :=
  if c.state = .readyToClose ∧ sendingEmpty = true
  then c.setState .terminating current else c

/-- The PeerTerminating timeout promotion of `Connection.flush`:
PeerTerminating advances to Terminating 4000 ms after entering it. -/
def Conn.flushPT (c : Conn) (current : Nat) : Conn :=
  if c.state = .peerTerminating ∧ 4000 < usub current c.stateBeginTime
  then c.setState .terminating current else c

/-- The ReadyToClose timeout promotion of `Connection.flush`: ReadyToClose
advances to Terminating 15000 ms after entering it (the source re-reads
`State()`, so this runs on the state left by the previous check). -/
def Conn.flushRTC (c : Conn) (current : Nat) : Conn :=
  if c.state = .readyToClose ∧ 15000 < usub current c.stateBeginTime
  then c.setState .terminating current else c

/-- The tail of `Connection.flush`: a Terminating connection sends the
Terminate command (a Ping with `CommandTerminate`) and, 8000 ms after
entering the state, becomes Terminated; any other state runs the timeout
promotions, flushes the workers, and sends a Ping when 3000 ms have passed
since the last one. -/
def Conn.flushFinish (c : Conn) (current : Nat) : Conn :=
  if c.state = .terminating then
    if 8000 < usub current (c.ping current).stateBeginTime
    then (c.ping current).setState .terminated current
    else c.ping current
  else
    if 3000 ≤ usub current ((c.flushPT current).flushRTC current).lastPingTime
    then ((c.flushPT current).flushRTC current).ping current
    else (c.flushPT current).flushRTC current

/-- `Connection.flush()` from connection.go, with `current` the elapsed
time and `sendingEmpty` the value of `sendingWorker.IsEmpty()`.  Terminated
connections do nothing. -/
def Conn.flush (c : Conn) (current : Nat) (sendingEmpty : Bool) : Conn :=
  if c.state = .terminated then c
  else ((c.flushIdle current).flushEmpty current sendingEmpty).flushFinish current

/-- The externally triggered operations that can change a connection's
state: a local `Close()`, an `Input` of a datagram's segments, and a
timer-driven `flush`. -/
inductive Ev where
  | close (current : Nat)
  | input (current : Nat) (segs : List Seg)
  | flush (current : Nat) (sendingEmpty : Bool)
  deriving Repr

/-- Apply one operation. -/
def Conn.step (c : Conn) : Ev → Conn
  | .close current => c.close current
  | .input current segs => c.input current segs
  | .flush current sendingEmpty => c.flush current sendingEmpty

/-- Apply a sequence of operations. -/
def Conn.runEvents (c : Conn) (evs : List Ev) : Conn :=
  evs.foldl Conn.step c

/-- The transition table of spec section 4.7, as (from, to) edges. -/
def tableEdge : CState → CState → Bool
  | .active, .readyToClose => true
  | .active, .peerClosed => true
  | .active, .peerTerminating => true
  | .readyToClose, .terminating => true
  | .peerClosed, .terminating => true
  | .peerTerminating, .terminating => true
  | .terminating, .terminated => true
  | _, _ => false

/-- The table of section 4.7 extended with the two transitions the code
performs beyond it: PeerClosed to PeerTerminating (on a peer Terminate
command) and PeerTerminating to Terminated (on a local `Close()`). -/
def extEdge : CState → CState → Bool
  | .peerClosed, .peerTerminating => true
  | .peerTerminating, .terminated => true
  | a, b => tableEdge a b

/-- A (possibly empty) path along extended-table edges. -/
inductive EdgePath : CState → CState → Prop
  | refl (s : CState) : EdgePath s s
  | step {a b c : CState} : extEdge a b = true → EdgePath b c → EdgePath a c

theorem EdgePath.trans {a b c : CState} (h1 : EdgePath a b) (h2 : EdgePath b c) :
    EdgePath a c := by
  induction h1 with
  | refl => exact h2
  | step e _ ih => exact EdgePath.step e (ih h2)

theorem EdgePath.one {a b : CState} (h : extEdge a b = true) : EdgePath a b :=
  EdgePath.step h (EdgePath.refl b)

theorem setState_state (c : Conn) (s : CState) (current : Nat) :
    (c.setState s current).state = s := by
  cases s <;> rfl

theorem setState_pingInterval (c : Conn) (s : CState) (current : Nat) :
    (c.setState s current).pingInterval =
      match s with
      | .terminating | .peerTerminating | .terminated => 1000
      | _ => c.pingInterval := by
  cases s <;> rfl

theorem usub_self_mod (a : Nat) : usub a (a % u32) = 0 := by
  unfold usub u32
  omega

end KcpConn

namespace KcpConn

theorem close_path (c : Conn) (current : Nat) :
    EdgePath c.state ((c.close current).state) := by
  cases hs : c.state <;> simp only [Conn.close, hs, setState_state] <;>
    first
      | exact EdgePath.refl _
      | exact EdgePath.one (by decide)

theorem onPeerClosed_path (c : Conn) (current : Nat) :
    EdgePath c.state ((c.onPeerClosed current).state) := by
  cases hs : c.state <;> simp only [Conn.onPeerClosed, hs, setState_state] <;>
    first
      | exact EdgePath.refl _
      | exact EdgePath.one (by decide)

theorem handleOption_path (c : Conn) (o : Bool) (current : Nat) :
    EdgePath c.state ((c.handleOption o current).state) := by
  unfold Conn.handleOption
  split
  · exact onPeerClosed_path c current
  · exact EdgePath.refl _

theorem termCmd_path (c : Conn) (current : Nat) :
    EdgePath c.state ((c.termCmd current).state) := by
  cases hs : c.state <;> simp only [Conn.termCmd, hs, setState_state] <;>
    first
      | exact EdgePath.refl _
      | exact EdgePath.one (by decide)

theorem inputSeg_path (current : Nat) (c : Conn) (seg : Seg) :
    EdgePath c.state ((Conn.inputSeg current c seg).state) := by
  rcases seg with o | o | ⟨cmd, o⟩
  · exact handleOption_path c o current
  · exact handleOption_path c o current
  · cases cmd
    · exact handleOption_path c o current
    · exact (handleOption_path c o current).trans (termCmd_path _ current)

theorem input_path (c : Conn) (current : Nat) (segs : List Seg) :
    EdgePath c.state ((c.input current segs).state) := by
  unfold Conn.input
  have h : ∀ (l : List Seg) (d : Conn),
      EdgePath d.state ((l.foldl (Conn.inputSeg current) d).state) := by
    intro l
    induction l with
    | nil => intro d; exact EdgePath.refl _
    | cons s rest ih =>
        intro d
        exact (inputSeg_path current d s).trans (ih (Conn.inputSeg current d s))
  exact h segs { c with lastIncomingTime := current % u32 }

theorem flushIdle_path (c : Conn) (current : Nat) :
    EdgePath c.state ((c.flushIdle current).state) := by
  unfold Conn.flushIdle
  split
  · exact close_path c current
  · exact EdgePath.refl _

theorem flushEmpty_path (c : Conn) (current : Nat) (se : Bool) :
    EdgePath c.state ((c.flushEmpty current se).state) := by
  unfold Conn.flushEmpty
  split
  case isTrue h =>
    rw [setState_state, h.1]
    exact EdgePath.one (by decide)
  case isFalse _ => exact EdgePath.refl _

theorem flushPT_path (c : Conn) (current : Nat) :
    EdgePath c.state ((c.flushPT current).state) := by
  unfold Conn.flushPT
  split
  case isTrue h =>
    rw [setState_state, h.1]
    exact EdgePath.one (by decide)
  case isFalse _ => exact EdgePath.refl _

theorem flushRTC_path (c : Conn) (current : Nat) :
    EdgePath c.state ((c.flushRTC current).state) := by
  unfold Conn.flushRTC
  split
  case isTrue h =>
    rw [setState_state, h.1]
    exact EdgePath.one (by decide)
  case isFalse _ => exact EdgePath.refl _

theorem flushFinish_path (c : Conn) (current : Nat) :
    EdgePath c.state ((c.flushFinish current).state) := by
  unfold Conn.flushFinish
  by_cases ht : c.state = .terminating
  · rw [if_pos ht]
    by_cases h8 : 8000 < usub current (c.ping current).stateBeginTime
    · rw [if_pos h8]
      have h : EdgePath c.state CState.terminated := by
        rw [ht]
        exact EdgePath.one (by decide)
      simpa only [setState_state] using h
    · rw [if_neg h8]
      exact EdgePath.refl _
  · rw [if_neg ht]
    have h : EdgePath c.state (((c.flushPT current).flushRTC current).state) :=
      (flushPT_path c current).trans (flushRTC_path _ current)
    by_cases h3 : 3000 ≤ usub current ((c.flushPT current).flushRTC current).lastPingTime
    · rw [if_pos h3]
      exact h
    · rw [if_neg h3]
      exact h

theorem flush_path (c : Conn) (current : Nat) (se : Bool) :
    EdgePath c.state ((c.flush current se).state) := by
  unfold Conn.flush
  split
  · exact EdgePath.refl _
  · exact ((flushIdle_path c current).trans
      (flushEmpty_path _ current se)).trans (flushFinish_path _ current)

theorem step_path (c : Conn) (ev : Ev) :
    EdgePath c.state ((c.step ev).state) := by
  cases ev with
  | close current => exact close_path c current
  | input current segs => exact input_path c current segs
  | flush current se => exact flush_path c current se

end KcpConn

namespace KcpConn

/-- States in which the ping updater interval has been dropped to one
second: Terminating (where Terminate commands are emitted),
PeerTerminating, and Terminated. -/
def lateState (s : CState) : Bool :=
  match s with
  | .terminating => true
  | .peerTerminating => true
  | .terminated => true
  | _ => false

/-- The ping updater interval is 5000 ms before the closing phase and
1000 ms from Terminating / PeerTerminating / Terminated on. -/
def pingInv (c : Conn) : Prop :=
  c.pingInterval = if lateState c.state then 1000 else 5000

theorem close_pingInv (c : Conn) (current : Nat) (h : pingInv c) :
    pingInv (c.close current) := by
  cases hs : c.state <;>
    simp_all [pingInv, Conn.close, Conn.setState, lateState]

theorem onPeerClosed_pingInv (c : Conn) (current : Nat) (h : pingInv c) :
    pingInv (c.onPeerClosed current) := by
  cases hs : c.state <;>
    simp_all [pingInv, Conn.onPeerClosed, Conn.setState, lateState]

theorem handleOption_pingInv (c : Conn) (o : Bool) (current : Nat) (h : pingInv c) :
    pingInv (c.handleOption o current) := by
  unfold Conn.handleOption
  split
  · exact onPeerClosed_pingInv c current h
  · exact h

theorem termCmd_pingInv (c : Conn) (current : Nat) (h : pingInv c) :
    pingInv (c.termCmd current) := by
  cases hs : c.state <;>
    simp_all [pingInv, Conn.termCmd, Conn.setState, lateState]

theorem inputSeg_pingInv (current : Nat) (c : Conn) (seg : Seg) (h : pingInv c) :
    pingInv (Conn.inputSeg current c seg) := by
  rcases seg with o | o | ⟨cmd, o⟩
  · exact handleOption_pingInv c o current h
  · exact handleOption_pingInv c o current h
  · cases cmd
    · exact handleOption_pingInv c o current h
    · exact termCmd_pingInv _ current (handleOption_pingInv c o current h)

theorem input_pingInv (c : Conn) (current : Nat) (segs : List Seg) (h : pingInv c) :
    pingInv (c.input current segs) := by
  unfold Conn.input
  have hgen : ∀ (l : List Seg) (d : Conn), pingInv d →
      pingInv (l.foldl (Conn.inputSeg current) d) := by
    intro l
    induction l with
    | nil => intro d hd; exact hd
    | cons s rest ih => intro d hd; exact ih _ (inputSeg_pingInv current d s hd)
  exact hgen segs { c with lastIncomingTime := current % u32 } h

theorem ping_pingInv (c : Conn) (current : Nat) (h : pingInv c) :
    pingInv (c.ping current) := h

theorem flushIdle_pingInv (c : Conn) (current : Nat) (h : pingInv c) :
    pingInv (c.flushIdle current) := by
  unfold Conn.flushIdle
  split
  · exact close_pingInv c current h
  · exact h

theorem flushEmpty_pingInv (c : Conn) (current : Nat) (se : Bool) (h : pingInv c) :
    pingInv (c.flushEmpty current se) := by
  unfold Conn.flushEmpty
  split
  · simp [pingInv, Conn.setState, lateState]
  · exact h

theorem flushPT_pingInv (c : Conn) (current : Nat) (h : pingInv c) :
    pingInv (c.flushPT current) := by
  unfold Conn.flushPT
  split
  · simp [pingInv, Conn.setState, lateState]
  · exact h

theorem flushRTC_pingInv (c : Conn) (current : Nat) (h : pingInv c) :
    pingInv (c.flushRTC current) := by
  unfold Conn.flushRTC
  split
  · simp [pingInv, Conn.setState, lateState]
  · exact h

theorem flushFinish_pingInv (c : Conn) (current : Nat) (h : pingInv c) :
    pingInv (c.flushFinish current) := by
  unfold Conn.flushFinish
  by_cases ht : c.state = .terminating
  · rw [if_pos ht]
    split
    · simp [pingInv, Conn.setState, lateState]
    · exact ping_pingInv c current h
  · rw [if_neg ht]
    have h2 := flushRTC_pingInv _ current (flushPT_pingInv c current h)
    split
    · exact ping_pingInv _ current h2
    · exact h2

theorem flush_pingInv (c : Conn) (current : Nat) (se : Bool) (h : pingInv c) :
    pingInv (c.flush current se) := by
  unfold Conn.flush
  split
  · exact h
  · exact flushFinish_pingInv _ current
      (flushEmpty_pingInv _ current se (flushIdle_pingInv c current h))

theorem step_pingInv (c : Conn) (ev : Ev) (h : pingInv c) :
    pingInv (c.step ev) := by
  cases ev with
  | close current => exact close_pingInv c current h
  | input current segs => exact input_pingInv c current segs h
  | flush current se => exact flush_pingInv c current se h

theorem setState_lastIncoming (c : Conn) (s : CState) (current : Nat) :
    (c.setState s current).lastIncomingTime = c.lastIncomingTime := by
  cases s <;> rfl

theorem onPeerClosed_lastIncoming (c : Conn) (current : Nat) :
    (c.onPeerClosed current).lastIncomingTime = c.lastIncomingTime := by
  cases hs : c.state <;>
    simp [Conn.onPeerClosed, hs, setState_lastIncoming]

theorem handleOption_lastIncoming (c : Conn) (o : Bool) (current : Nat) :
    (c.handleOption o current).lastIncomingTime = c.lastIncomingTime := by
  unfold Conn.handleOption
  split
  · exact onPeerClosed_lastIncoming c current
  · rfl

theorem termCmd_lastIncoming (c : Conn) (current : Nat) :
    (c.termCmd current).lastIncomingTime = c.lastIncomingTime := by
  cases hs : c.state <;>
    simp [Conn.termCmd, hs, setState_lastIncoming]

theorem inputSeg_lastIncoming (current : Nat) (c : Conn) (seg : Seg) :
    (Conn.inputSeg current c seg).lastIncomingTime = c.lastIncomingTime := by
  rcases seg with o | o | ⟨cmd, o⟩
  · exact handleOption_lastIncoming c o current
  · exact handleOption_lastIncoming c o current
  · cases cmd
    · exact handleOption_lastIncoming c o current
    · rw [Conn.inputSeg, termCmd_lastIncoming, handleOption_lastIncoming]

theorem input_lastIncoming (c : Conn) (current : Nat) (segs : List Seg) :
    (c.input current segs).lastIncomingTime = current % u32 := by
  unfold Conn.input
  have hgen : ∀ (l : List Seg) (d : Conn),
      (l.foldl (Conn.inputSeg current) d).lastIncomingTime = d.lastIncomingTime := by
    intro l
    induction l with
    | nil => intro d; rfl
    | cons s rest ih =>
        intro d
        rw [List.foldl_cons, ih, inputSeg_lastIncoming]
  exact hgen segs _

end KcpConn

/-- Claim C1 (counterexample): starting from a fresh connection, a peer
Close option moves it to PeerClosed, and an incoming Terminate command then
moves it to PeerTerminating — but (PeerClosed, PeerTerminating) is not an
edge of the section 4.7 transition table, so this state change does not
follow the table. -/
theorem C1_counterexample :
    (KcpConn.initConn.runEvents [.input 0 [.cmd .ping true]]).state
      = .peerClosed ∧
    (KcpConn.initConn.runEvents
      [.input 0 [.cmd .ping true], .input 100 [.cmd .terminate false]]).state
      = .peerTerminating ∧
    KcpConn.tableEdge .peerClosed .peerTerminating = false := by
  refine ⟨rfl, rfl, rfl⟩

/-- Claim C1 (amended): every state change of a connection — local
`Close()`, incoming segments (Close option or Terminate command), or a
flush — follows a path of edges of the section 4.7 table *extended with two
transitions present in the code*: PeerClosed to PeerTerminating on a peer
Terminate command, and PeerTerminating to Terminated on a local `Close()`.
Along the extended edge set the connection still never moves backwards: no
edge enters Active, the only edge into ReadyToClose leaves Active, and no
edge leaves Terminated (so once Terminated no further transition occurs). -/
theorem C1_transitions_follow_dag (c : KcpConn.Conn) (ev : KcpConn.Ev) :
    KcpConn.EdgePath c.state ((c.step ev).state) ∧
    (∀ s, KcpConn.extEdge s .active = false) ∧
    (∀ s, KcpConn.extEdge s .readyToClose = (s == .active)) ∧
    (∀ s, KcpConn.extEdge .terminated s = false) :=
  ⟨KcpConn.step_path c ev,
   fun s => by cases s <;> rfl,
   fun s => by cases s <;> rfl,
   fun s => by cases s <;> rfl⟩

/-- Claim C4 (counterexample): a fresh Active connection receives only a
pure Ack segment (no payload) at t = 20000 ms; at the flush at t = 35000 ms
it has seen no payload for 35 s > 30 s, yet it stays Active — the idle
check uses `lastIncomingTime`, which the Ack reset — contradicting the
claim that the next flush moves it to ReadyToClose and that non-payload
traffic does not reset the timer. -/
theorem C4_counterexample :
    (KcpConn.initConn.runEvents
      [.input 20000 [.ack false], .flush 35000 true]).state = .active ∧
    KcpConn.CState.active ≠ KcpConn.CState.readyToClose := by
  exact ⟨rfl, by decide⟩

/-- Claim C4 (amended): the 30-second idle timer counts from the last
*incoming traffic of any kind* (`lastIncomingTime`), not from the last
payload: every `Input` — payload, Ack or Ping alike — resets it.  When an
Active connection has received nothing at all for 30 s or more, the next
flush initiates graceful close: it enters ReadyToClose, and continues to
Terminating in the same flush when the sending buffer is empty. -/
theorem C4_idle_uses_any_traffic (c : KcpConn.Conn) (current : Nat) (se : Bool)
    (hA : c.state = .active) (hIdle : 30000 ≤ usub current c.lastIncomingTime) :
    (c.flush current se).state
      = (if se then KcpConn.CState.terminating else KcpConn.CState.readyToClose) ∧
    ∀ (cur : Nat) (segs : List KcpConn.Seg),
      (c.input cur segs).lastIncomingTime = cur % u32 := by
  constructor
  · have h1 : c.flushIdle current = c.setState .readyToClose current := by
      rw [KcpConn.Conn.flushIdle, if_pos ⟨hA, hIdle⟩]
      simp [KcpConn.Conn.close, hA]
    cases se with
    | true =>
        have h2 : (c.flushIdle current).flushEmpty current true
            = (c.flushIdle current).setState .terminating current := by
          rw [KcpConn.Conn.flushEmpty, if_pos]
          exact ⟨by rw [h1, KcpConn.setState_state], rfl⟩
        rw [KcpConn.Conn.flush, if_neg (by rw [hA]; exact fun h => by cases h), h2, h1]
        rw [KcpConn.Conn.flushFinish]
        simp [KcpConn.Conn.setState, KcpConn.Conn.ping, KcpConn.usub_self_mod]
    | false =>
        have h2 : (c.flushIdle current).flushEmpty current false = c.flushIdle current := by
          rw [KcpConn.Conn.flushEmpty, if_neg]
          simp
        rw [KcpConn.Conn.flush, if_neg (by rw [hA]; exact fun h => by cases h), h2, h1]
        rw [KcpConn.Conn.flushFinish]
        simp only [KcpConn.setState_state]
        rw [if_neg (by simp)]
        have h3 : (c.setState .readyToClose current).flushPT current
            = c.setState .readyToClose current := by
          rw [KcpConn.Conn.flushPT, if_neg]
          simp [KcpConn.setState_state]
        have h4 : (c.setState .readyToClose current).flushRTC current
            = c.setState .readyToClose current := by
          rw [KcpConn.Conn.flushRTC, if_neg]
          intro hcontra
          have := hcontra.2
          simp [KcpConn.Conn.setState, KcpConn.usub_self_mod] at this
        rw [h3, h4]
        split <;> simp [KcpConn.Conn.ping, KcpConn.setState_state]
  · intro cur segs
    exact KcpConn.input_lastIncoming c cur segs

/-- Witness for C4: the fresh connection is Active with
`lastIncomingTime = 0`; at `current = 35000` the idle bound holds and the
flush (with a non-empty sending buffer) leaves it in ReadyToClose. -/
theorem C4_idle_uses_any_traffic_witness :
    KcpConn.initConn.state = .active ∧
    30000 ≤ usub 35000 KcpConn.initConn.lastIncomingTime ∧
    (KcpConn.initConn.flush 35000 false).state = .readyToClose := by
  refine ⟨rfl, by decide, ?_⟩
  have h := C4_idle_uses_any_traffic KcpConn.initConn 35000 false rfl (by decide)
  simpa using h.1

/-- Claim C5 (counterexample): the ping updater is created by
`NewConnection` with an interval of 5000 ms (the source comments "5
seconds"), not the 3000 ms the claim states. -/
theorem C5_counterexample :
    KcpConn.initConn.pingInterval = 5000 ∧ (5000 : Nat) ≠ 3000 := by
  exact ⟨rfl, by decide⟩

/-- Claim C5 (amended): the ping updater of a connection fires every
5000 ms (not 3000 ms) while the connection is not Terminated, and its
interval drops to 1000 ms as soon as the connection enters Terminating
(the state in which Terminate commands are emitted), PeerTerminating, or
Terminated: along every sequence of operations from a fresh connection the
interval is exactly 5000 ms before those states and exactly 1000 ms in
them. -/
theorem C5_ping_interval (evs : List KcpConn.Ev) :
    (KcpConn.initConn.runEvents evs).pingInterval
      = (if KcpConn.lateState (KcpConn.initConn.runEvents evs).state
         then 1000 else 5000) := by
  have hgen : ∀ (l : List KcpConn.Ev) (c : KcpConn.Conn), KcpConn.pingInv c →
      KcpConn.pingInv (c.runEvents l) := by
    intro l
    induction l with
    | nil => intro c hc; exact hc
    | cons ev rest ih => intro c hc; exact ih _ (KcpConn.step_pingInv c ev hc)
  exact hgen evs KcpConn.initConn (by simp [KcpConn.pingInv, KcpConn.initConn, KcpConn.lateState])

/-- Reinterpret a uint32 value as a signed int32 (Go `int32(x)`). -/
def toInt32 (a : Nat) : Int :=
  if a % u32 < u31 then (a % u32 : Int) else (a % u32 : Int) - (u32 : Int)

namespace KcpCore

/-- State of the older KCP core (kcp.go): Active=0, ReadyToClose=1,
PeerClosed=2, Terminating=3, Terminated=4 (this enum has no
PeerTerminating). -/
inductive KState where
  | active
  | readyToClose
  | peerClosed
  | terminating
  | terminated
  deriving Repr, DecidableEq

/-- A data segment of the older KCP core.  The payload buffer is
represented by its byte length. -/
structure DataSeg where
  conv : Nat
  number : Nat
  timestamp : Nat
  sendingNext : Nat
  optClose : Bool
  timeout : Nat
  ackSkipped : Nat
  transmit : Nat
  dataLen : Nat
  deriving Repr, DecidableEq

/-- Modelled from the spec: the receiving window (its Go file is not under
src/; section 4.6 and receiving_test.go fix its behavior) — a ring of
`size` slots with a rotating head position. -/
structure ReceivingWindow where
  size : Nat
  pos : Nat
  slots : List (Option DataSeg)
  deriving Repr, DecidableEq

/-- A fresh ring of `size` empty slots. -/
def NewReceivingWindow (size : Nat) : ReceivingWindow :=
  { size := size, pos := 0, slots := List.replicate size none }

/-- Modelled from the spec: `Set(idx, seg)` stores at the ring slot `idx`
after the head; returns false (no change) when the slot is occupied. -/
def ReceivingWindow.set (w : ReceivingWindow) (idx : Nat) (seg : DataSeg) :
    ReceivingWindow × Bool :=
  if w.size = 0 then (w, false)
  else
    let p := (w.pos + idx) % w.size
    match w.slots.getD p none with
    | some _ => (w, false)
    | none => ({ w with slots := w.slots.set p (some seg) }, true)

/-- Modelled from the spec: `RemoveFirst` returns and clears the head slot
when present. -/
def ReceivingWindow.removeFirst (w : ReceivingWindow) :
    Option DataSeg × ReceivingWindow :=
  if w.size = 0 then (none, w)
  else
    match w.slots.getD (w.pos % w.size) none with
    | none => (none, w)
    | some seg => (some seg, { w with slots := w.slots.set (w.pos % w.size) none })

/-- Modelled from the spec: `Advance` rotates the head forward by one. -/
def ReceivingWindow.advance (w : ReceivingWindow) : ReceivingWindow :=
  if w.size = 0 then w else { w with pos := (w.pos + 1) % w.size }

/-- The older KCP core (`KCP` in kcp.go).  The sending queue holds payload
lengths (numbers are assigned on flush); the receiving queue holds
delivered payload lengths plus its closed flag (the queue itself is not
under src/; modelled from the spec).  Output writing is a pure side effect
and is not part of the state. -/
structure KCP where
  conv : Nat
  state : KState
  stateBeginTime : Nat
  lastIncomingTime : Nat
  lastPayloadTime : Nat
  lastPingTime : Nat
  sendingUpdated : Bool
  receivingUpdated : Bool
  mtu : Nat
  mss : Nat
  snd_una : Nat
  snd_nxt : Nat
  rcv_nxt : Nat
  rx_rttvar : Nat
  rx_srtt : Nat
  rx_rto : Nat
  snd_wnd : Nat
  rcv_wnd : Nat
  rmt_wnd : Nat
  cwnd : Nat
  current : Nat
  interval : Nat
  snd_queue_cap : Nat
  snd_queue : List Nat
  rcv_queue_closed : Bool
  rcv_queue : List Nat
  snd_buf : List DataSeg
  rcv_buf : ReceivingWindow
  acklist : List (Nat × Nat)
  fastresend : Nat
  congestionControl : Bool
  deriving Repr, DecidableEq

/-- `DataSegmentOverhead`: the fixed framing of a Data segment (section 6
wire format: cmd 1 + opt 1 + conv 2 + timestamp 4 + number 4 +
sending-next 4 + payload-length 2 = 18 bytes).  The constant's Go file is
not under src/. -/
def DataSegmentOverhead : Nat := 18

/-- `NewKCP(conv, mtu, sendingWindowSize, receivingWindowSize,
sendingQueueSize, output)` from kcp.go: `rmt_wnd` starts at
`IKCP_WND_RCV = 32`, `rx_rto` at `IKCP_RTO_DEF = 200`, `interval` at
`IKCP_INTERVAL = 100`, `cwnd` at the sending window size, and
`mss = mtu - DataSegmentOverhead`. -/
def NewKCP (conv mtu sendingWindowSize receivingWindowSize sendingQueueSize : Nat) : KCP :=
  { conv := conv, state := .active, stateBeginTime := 0, lastIncomingTime := 0,
    lastPayloadTime := 0, lastPingTime := 0, sendingUpdated := false,
    receivingUpdated := false, mtu := mtu, mss := mtu - DataSegmentOverhead,
    snd_una := 0, snd_nxt := 0, rcv_nxt := 0, rx_rttvar := 0, rx_srtt := 0,
    rx_rto := 200, snd_wnd := sendingWindowSize, rcv_wnd := receivingWindowSize,
    rmt_wnd := 32, cwnd := sendingWindowSize, current := 0, interval := 100,
    snd_queue_cap := sendingQueueSize, snd_queue := [], rcv_queue_closed := false,
    rcv_queue := [], snd_buf := [], rcv_buf := NewReceivingWindow receivingWindowSize,
    acklist := [], fastresend := 0, congestionControl := false }

/-- `KCP.ClearSendQueue`: empties the sending queue and releases and drops
every in-flight segment. -/
def KCP.clearSendQueue (k : KCP) : KCP :=
  { k with snd_queue := [], snd_buf := [] }

/-- `KCP.SetState` from kcp.go: records the state and its begin time;
ReadyToClose/Terminating/Terminated close the receiving queue, PeerClosed
clears the send queue. -/
def KCP.setState (k : KCP) (s : KState) : KCP :=
  let base := { k with state := s, stateBeginTime := k.current }
  match s with
  | .active => base
  | .readyToClose => { base with rcv_queue_closed := true }
  | .peerClosed => base.clearSendQueue
  | .terminating => { base with rcv_queue_closed := true }
  | .terminated => { base with rcv_queue_closed := true }

/-- `KCP.OnPeerClosed` from kcp.go. -/
def KCP.onPeerClosed (k : KCP) : KCP :=
  match k.state with
  | .readyToClose => k.setState .terminating
  | .active => k.setState .peerClosed
  | _ => k

/-- `KCP.OnClose` from kcp.go. -/
def KCP.onClose (k : KCP) : KCP :=
  match k.state with
  | .active => k.setState .readyToClose
  | .peerClosed => k.setState .terminating
  | _ => k

/-- `KCP.HandleOption` from kcp.go. -/
def KCP.handleOption (k : KCP) (optClose : Bool) : KCP :=
  if optClose then k.onPeerClosed else k

/-- The loop body of `KCP.DumpReceivingBuf`: drain contiguous head slots
into the receiving queue, bumping `rcv_nxt`.  Each successful iteration
clears a filled slot, so `size` iterations of fuel suffice. -/
def dumpLoop : Nat → KCP → KCP
  | 0, k => k
  | fuel + 1, k =>
      match k.rcv_buf.removeFirst with
      | (none, _) => k
      | (some seg, w1) =>
          dumpLoop fuel
            { k with rcv_buf := w1.advance,
                     rcv_queue := k.rcv_queue ++ [seg.dataLen],
                     rcv_nxt := (k.rcv_nxt + 1) % u32,
                     receivingUpdated := true }

/-- `KCP.DumpReceivingBuf` from kcp.go. -/
def KCP.dumpReceivingBuf (k : KCP) : KCP := dumpLoop k.rcv_buf.size k

/-- The loop of `KCP.Send`: chunk the buffer into segments of at most
`mss` bytes while the sending queue has room (fuel is the queue's free
space, matching the `IsFull` check). -/
def sendLoop (mss : Nat) : Nat → Nat → List Nat → List Nat
  | 0, _, q => q
  | fuel + 1, n, q =>
      if n = 0 then q
      else
        let size := if mss < n then mss else n
        sendLoop mss fuel (n - size) (q ++ [size])

/-- `KCP.Send(buffer)` from kcp.go, with the buffer given by its length. -/
def KCP.send (k : KCP) (n : Nat) : KCP :=
  { k with snd_queue := sendLoop k.mss (k.snd_queue_cap - k.snd_queue.length) n k.snd_queue }

/-- `KCP.update_ack(rtt)` from kcp.go (this core's own RFC 6298 state,
distinct from connection.go's `RoundTripInfo`): the else-branch adds
`interval`, the clamp is at `IKCP_RTO_MAX = 60000`, and the stored rto is
`rto * 3 / 2`. -/
def KCP.update_ack (k : KCP) (rtt : Nat) : KCP :=
  let p :=
    if k.rx_srtt = 0 then (rtt % u32, rtt % u32 / 2)
    else
      let delta := ((rtt : Int) - toInt32 k.rx_srtt).natAbs % u32
      let var1 := (3 * k.rx_rttvar % u32 + delta) % u32 / 4
      let srtt1 := (7 * k.rx_srtt % u32 + rtt) % u32 / 8
      (if srtt1 < k.interval then k.interval else srtt1, var1)
  let rto0 := if k.interval < 4 * p.2 % u32 then (p.1 + 4 * p.2 % u32) % u32
              else (p.1 + k.interval) % u32
  let rto1 := if 60000 < rto0 then 60000 else rto0
  { k with rx_srtt := p.1, rx_rttvar := p.2, rx_rto := rto1 * 3 / 2 }

/-- `KCP.shrink_buf` from kcp.go: `snd_una` becomes the first in-flight
number, or `snd_nxt` when the buffer is empty; a change sets the
sending-updated flag. -/
def KCP.shrink_buf (k : KCP) : KCP :=
  let una1 := match k.snd_buf with
    | seg :: _ => seg.number
    | [] => k.snd_nxt
  { k with snd_una := una1,
           sendingUpdated := k.sendingUpdated || (una1 != k.snd_una) }

/-- The removal loop of `KCP.parse_ack`: remove the first segment whose
number equals `sn`, stopping early once numbers pass `sn`. -/
def parseAckLoop (sn : Nat) : List DataSeg → List DataSeg
  | [] => []
  | seg :: rest =>
      if sn = seg.number then rest
      else if itimediff sn seg.number < 0 then seg :: rest
      else seg :: parseAckLoop sn rest

/-- `KCP.parse_ack(sn)` from kcp.go. -/
def KCP.parse_ack (k : KCP) (sn : Nat) : KCP :=
  if itimediff sn k.snd_una < 0 ∨ 0 ≤ itimediff sn k.snd_nxt then k
  else { k with snd_buf := parseAckLoop sn k.snd_buf }

/-- The loop of `KCP.parse_fastack`: bump `ackSkipped` on every segment
with number below `sn`, stopping once numbers pass `sn`. -/
def fastackLoop (sn : Nat) : List DataSeg → List DataSeg
  | [] => []
  | seg :: rest =>
      if itimediff sn seg.number < 0 then seg :: rest
      else if sn = seg.number then seg :: fastackLoop sn rest
      else { seg with ackSkipped := (seg.ackSkipped + 1) % u32 } :: fastackLoop sn rest

/-- `KCP.parse_fastack(sn)` from kcp.go. -/
def KCP.parse_fastack (k : KCP) (sn : Nat) : KCP :=
  if itimediff sn k.snd_una < 0 ∨ 0 ≤ itimediff sn k.snd_nxt then k
  else { k with snd_buf := fastackLoop sn k.snd_buf }

/-- `KCP.HandleReceivingNext(receivingNext)` from kcp.go: drop the
acknowledged prefix of the sending buffer. -/
def KCP.handleReceivingNext (k : KCP) (receivingNext : Nat) : KCP :=
  { k with snd_buf :=
      k.snd_buf.dropWhile (fun seg => 0 < itimediff receivingNext seg.number) }

/-- `KCP.HandleSendingNext(sendingNext)` from kcp.go: clear acknowledged
entries from the ACK list (`ACKList.Clear` is not under src/; modelled from
the spec: it discards entries whose numbers fall behind the peer's
sending-next, reporting whether anything was removed). -/
def KCP.handleSendingNext (k : KCP) (sendingNext : Nat) : KCP :=
  let kept := k.acklist.filter (fun p => 0 ≤ itimediff p.1 sendingNext)
  { k with acklist := kept,
           receivingUpdated := k.receivingUpdated || (kept.length != k.acklist.length) }

/-- `KCP.parse_data(newseg)` from kcp.go: a segment outside
`[rcv_nxt, rcv_nxt + rcv_wnd)` (wrap-around order) is dropped with no
effect; otherwise it is stored in the ring (duplicates released) and
contiguous segments are drained to the receiving queue. -/
def KCP.parse_data (k : KCP) (newseg : DataSeg) : KCP :=
  if 0 ≤ itimediff newseg.number ((k.rcv_nxt + k.rcv_wnd) % u32) ∨
     itimediff newseg.number k.rcv_nxt < 0 then k
  else
    let idx := usub newseg.number k.rcv_nxt
    ({ k with rcv_buf := (k.rcv_buf.set idx newseg).1 }).dumpReceivingBuf

end KcpCore

namespace KcpCore

/-- An incoming segment of the older KCP core, as parsed by `ReadSegment`. -/
inductive ISeg where
  | data (optClose : Bool) (sendingNext number timestamp dataLen : Nat)
  | ack (optClose : Bool) (receivingWindow receivingNext : Nat) (pairs : List (Nat × Nat))
  | cmd (optClose : Bool) (terminate : Bool) (receivingNext sendingNext : Nat)
  deriving Repr, DecidableEq

/-- The per-pair body of the ACK case of `KCP.Input`: an RTT sample when
the timestamp is not in the future, then `parse_ack`, tracking the largest
acknowledged number for the final fast-ack pass. -/
def inputAckPairs : KCP × Option Nat → List (Nat × Nat) → KCP × Option Nat
  | acc, [] => acc
  | (k, ma), (ts, sn) :: rest =>
      let k1 := if 0 ≤ itimediff k.current ts
                then k.update_ack (itimediff k.current ts).toNat else k
      let k2 := k1.parse_ack sn
      let ma2 := match ma with
        | none => some sn
        | some m => if 0 < itimediff sn m then some sn else some m
      inputAckPairs (k2, ma2) rest

/-- The Terminate-command state changes of `KCP.Input`. -/
def KCP.termCmd (k : KCP) : KCP :=
  match k.state with
  | .active => k.setState .terminating
  | .readyToClose => k.setState .terminating
  | .peerClosed => k.setState .terminating
  | .terminating => k.setState .terminated
  | _ => k

/-- One segment of `KCP.Input`, threading the fast-ack tracker;
`shrink_buf` runs after every segment. -/
def inputOne (acc : KCP × Option Nat) (seg : ISeg) : KCP × Option Nat :=
  match seg with
  | .data optClose sendingNext number timestamp dataLen =>
      let k1 := (acc.1.handleOption optClose).handleSendingNext sendingNext
      let k2 := { k1 with acklist := k1.acklist ++ [(number, timestamp)],
                          receivingUpdated := true }
      let k3 := k2.parse_data
        { conv := k2.conv, number := number, timestamp := timestamp,
          sendingNext := sendingNext, optClose := optClose, timeout := 0,
          ackSkipped := 0, transmit := 0, dataLen := dataLen }
      let k4 := { k3 with lastPayloadTime := k3.current }
      (k4.shrink_buf, acc.2)
  | .ack optClose receivingWindow receivingNext pairs =>
      let k1 := acc.1.handleOption optClose
      let k2 := if k1.rmt_wnd < receivingWindow
                then { k1 with rmt_wnd := receivingWindow } else k1
      let k3 := k2.handleReceivingNext receivingNext
      let r := inputAckPairs (k3, acc.2) pairs
      let k4 := { r.1 with lastPayloadTime := r.1.current }
      (k4.shrink_buf, r.2)
  | .cmd optClose terminate receivingNext sendingNext =>
      let k1 := acc.1.handleOption optClose
      let k2 := if terminate then k1.termCmd else k1
      let k3 := (k2.handleReceivingNext receivingNext).handleSendingNext sendingNext
      (k3.shrink_buf, acc.2)

/-- `KCP.Input(data)` from kcp.go: records the incoming time, processes
each parsed segment with `shrink_buf` after each, then runs one
`parse_fastack` on the largest number seen in ACK segments. -/
def KCP.input (k : KCP) (segs : List ISeg) : KCP :=
  let r := segs.foldl inputOne ({ k with lastIncomingTime := k.current }, none)
  match r.2 with
  | none => r.1
  | some ma => r.1.parse_fastack ma

/-- The ACK emission of `KCP.flush`: `AsSegment` packs and drains the
list (modelled from the spec: "Flush emits up to one Ack segment per
call"); a non-nil segment clears the receiving-updated flag. -/
def KCP.flushAck (k : KCP) : KCP :=
  match k.acklist with
  | [] => k
  | _ :: _ => { k with acklist := [], receivingUpdated := false }

/-- The congestion window cap computed by `KCP.flush` (uint32 arithmetic):
`snd_una + snd_wnd`, raised to `rmt_wnd` when that is larger, and raised to
`snd_una + cwnd` under congestion control when that is larger still. -/
def KCP.flushWindowCap (k : KCP) : Nat :=
  let c0 := (k.snd_una + k.snd_wnd) % u32
  let c1 := if c0 < k.rmt_wnd then k.rmt_wnd else c0
  if k.congestionControl ∧ c1 < (k.snd_una + k.cwnd) % u32
  then (k.snd_una + k.cwnd) % u32 else c1

/-- The push loop of `KCP.flush`: move queued payloads into the sending
buffer while `snd_nxt` is below the window cap, assigning numbers. -/
def pushLoop (conv cap current : Nat) :
    List Nat → List DataSeg → Nat → List Nat × List DataSeg × Nat
  | [], buf, nxt => ([], buf, nxt)
  | d :: rest, buf, nxt =>
      if itimediff nxt cap < 0 then
        pushLoop conv cap current rest
          (buf ++ [{ conv := conv, number := nxt, timestamp := 0, sendingNext := 0,
                     optClose := false, timeout := current, ackSkipped := 0,
                     transmit := 0, dataLen := d }])
          ((nxt + 1) % u32)
      else (d :: rest, buf, nxt)

/-- `KCP.flush`'s queue-to-buffer stage. -/
def KCP.flushPush (k : KCP) : KCP :=
  let p := pushLoop k.conv k.flushWindowCap k.current k.snd_queue k.snd_buf k.snd_nxt
  { k with snd_queue := p.1, snd_buf := p.2.1, snd_nxt := p.2.2 }

/-- One segment of `KCP.flush`'s retransmission pass: first transmission,
timeout retransmission (loss), or fast retransmission after `resent`
skipped acks (loss); a sent segment gets the current timestamp,
`snd_una` as sending-next, and the Close option in ReadyToClose.  Returns
(segment, sent, lost). -/
def resendSeg (current rxRto resent una : Nat) (isRTC : Bool) (seg : DataSeg) :
    DataSeg × Bool × Bool :=
  if seg.transmit = 0 then
    ({ seg with transmit := (seg.transmit + 1) % u32,
                timeout := (current + rxRto) % u32,
                timestamp := current, sendingNext := una, optClose := isRTC },
     true, false)
  else if 0 ≤ itimediff current seg.timeout then
    ({ seg with transmit := (seg.transmit + 1) % u32,
                timeout := (current + rxRto) % u32,
                timestamp := current, sendingNext := una, optClose := isRTC },
     true, true)
  else if resent ≤ seg.ackSkipped then
    ({ seg with transmit := (seg.transmit + 1) % u32, ackSkipped := 0,
                timeout := (current + rxRto) % u32,
                timestamp := current, sendingNext := una, optClose := isRTC },
     true, true)
  else (seg, false, false)

/-- `KCP.flush`'s retransmission pass over the sending buffer; any send
clears the sending-updated flag; returns the lost signal. -/
def KCP.flushData (k : KCP) (resent : Nat) : KCP × Bool :=
  let rs := k.snd_buf.map
    (resendSeg k.current k.rx_rto resent k.snd_una (decide (k.state = .readyToClose)))
  ({ k with snd_buf := rs.map (fun r => r.1),
            sendingUpdated := if rs.any (fun r => r.2.1) then false
                              else k.sendingUpdated },
   rs.any (fun r => r.2.2))

/-- `KCP.flush`'s Ping emission: when either side is dirty or 5000 ms have
passed since the last ping. -/
def KCP.flushPing (k : KCP) : KCP :=
  if k.sendingUpdated || k.receivingUpdated || (5000 ≤ itimediff k.current k.lastPingTime)
  then { k with lastPingTime := k.current, sendingUpdated := false,
                receivingUpdated := false }
  else k

/-- `KCP.flush`'s congestion update: a loss shrinks `cwnd` by 25%, its
absence grows it by 25%, clamped into `[4, snd_wnd]`. -/
def KCP.flushCwnd (k : KCP) (lost : Bool) : KCP :=
  if k.congestionControl then
    let c0 := if lost then 3 * k.cwnd % u32 / 4 else (k.cwnd + k.cwnd / 4) % u32
    let c1 := if c0 < 4 then 4 else c0
    { k with cwnd := if k.snd_wnd < c1 then k.snd_wnd else c1 }
  else k

/-- The data-path tail of `KCP.flush` (ACK emission, window push,
retransmissions, ping, congestion). -/
def KCP.flushMain (k : KCP) : KCP :=
  let k7 := (k.flushAck).flushPush
  let resent := if k7.fastresend = 0 then 4294967295 else k7.fastresend
  let r := k7.flushData resent
  (r.1.flushPing).flushCwnd r.2

/-- The payload-idle check of `KCP.flush`: Active with no payload for
30000 ms or more closes (this core keys on `lastPayloadTime`). -/
def KCP.flushIdleK (k : KCP) : KCP :=
  if k.state = .active ∧ 30000 ≤ itimediff k.current k.lastPayloadTime
  then k.onClose else k

/-- The ReadyToClose timeout of `KCP.flush`: promote to Terminating after
15000 ms (flushing then continues). -/
def KCP.flushRTCK (k : KCP) : KCP :=
  if k.state = .readyToClose ∧ 15000 < itimediff k.current k.stateBeginTime
  then k.setState .terminating else k

/-- `KCP.flush()` from kcp.go: Terminated does nothing; Terminating emits
the Terminate command and becomes Terminated 8000 ms after entering the
state; otherwise the ReadyToClose timeout runs and the data path flushes. -/
def KCP.flush (k : KCP) : KCP :=
  if k.state = .terminated then k
  else if (k.flushIdleK).state = .terminating then
    (if 8000 < itimediff (k.flushIdleK).current (k.flushIdleK).stateBeginTime
     then (k.flushIdleK).setState .terminated else k.flushIdleK)
  else ((k.flushIdleK).flushRTCK).flushMain

/-- `KCP.Update(current)` from kcp.go. -/
def KCP.update (k : KCP) (current : Nat) : KCP :=
  { k with current := current % u32 }.flush

end KcpCore

theorem usub_self (a : Nat) : usub a a = 0 := by
  unfold usub u32
  omega

theorem usub_lt_u32 (a b : Nat) : usub a b < u32 := by
  unfold usub u32
  omega

theorem usub_succ (a b : Nat) (h : usub a b + 1 < u32) :
    usub ((a + 1) % u32) b = usub a b + 1 := by
  unfold usub u32 at h ⊢
  omega

theorem usub_shift (a b c : Nat) (hbc : usub b c ≤ usub a c) :
    usub a b = usub a c - usub b c := by
  unfold usub u32 at hbc ⊢
  omega

theorem itimediff_neg_iff (a b : Nat) : itimediff a b < 0 ↔ u31 ≤ usub a b := by
  unfold itimediff usub u32 u31
  simp only []
  split <;> omega

theorem itimediff_nonneg_iff (a b : Nat) : 0 ≤ itimediff a b ↔ usub a b < u31 := by
  unfold itimediff usub u32 u31
  simp only []
  split <;> omega

namespace KcpCore

/-- Well-formedness of a sender triple: the in-flight span
`snd_nxt - snd_una` (in wrap-around distance) is under 2^31, every
buffered number lies in `[snd_una, snd_nxt)` (as a distance from
`snd_una`), and the buffer is strictly increasing in that distance. -/
def sndWf (una nxt : Nat) (buf : List DataSeg) : Prop :=
  usub nxt una < u31 ∧
  (∀ s ∈ buf, usub s.number una < usub nxt una) ∧
  buf.Pairwise (fun a b => usub a.number una < usub b.number una)

/-- Sender well-formedness of a KCP core state. -/
def KCP.wf (k : KCP) : Prop := sndWf k.snd_una k.snd_nxt k.snd_buf

theorem wf_congr (k k' : KCP) (h : k.wf) (h1 : k'.snd_una = k.snd_una)
    (h2 : k'.snd_nxt = k.snd_nxt) (h3 : k'.snd_buf = k.snd_buf) : k'.wf := by
  unfold KCP.wf at *
  rw [h1, h2, h3]
  exact h

theorem sndWf_sublist (una nxt : Nat) (buf buf' : List DataSeg)
    (hs : List.Sublist buf' buf) (h : sndWf una nxt buf) : sndWf una nxt buf' := by
  refine ⟨h.1, ?_, h.2.2.sublist hs⟩
  intro s hm
  exact h.2.1 s (hs.subset hm)

theorem sndWf_map_number (una nxt : Nat) (buf buf' : List DataSeg)
    (hn : buf'.map (fun s => s.number) = buf.map (fun s => s.number))
    (h : sndWf una nxt buf) : sndWf una nxt buf' := by
  refine ⟨h.1, ?_, ?_⟩
  · intro s hm
    have h1 : s.number ∈ buf.map (fun s => s.number) := by
      rw [← hn]
      exact List.mem_map_of_mem _ hm
    rcases List.mem_map.mp h1 with ⟨t, ht, hteq⟩
    have h2 := h.2.1 t ht
    rw [hteq] at h2
    exact h2
  · have hp : (buf.map (fun s => s.number)).Pairwise
        (fun x y => usub x una < usub y una) := by
      rw [List.pairwise_map]
      exact h.2.2
    rw [← hn] at hp
    have h2 := List.pairwise_map.mp hp
    exact h2

theorem sndWf_empty (una nxt : Nat) (h : usub nxt una < u31) : sndWf una nxt [] := by
  refine ⟨h, ?_, ?_⟩ <;> simp

theorem sndWf_rebase (una nxt : Nat) (b : DataSeg) (rest : List DataSeg)
    (h : sndWf una nxt (b :: rest)) : sndWf b.number nxt (b :: rest) := by
  have hbmem : usub b.number una < usub nxt una :=
    h.2.1 b (List.mem_cons_self b rest)
  have hmin : ∀ s ∈ b :: rest, usub b.number una ≤ usub s.number una := by
    intro s hs
    rcases List.mem_cons.mp hs with rfl | hs
    · exact le_refl _
    · exact le_of_lt ((List.pairwise_cons.mp h.2.2).1 s hs)
  refine ⟨?_, ?_, ?_⟩
  · rw [usub_shift nxt b.number una (le_of_lt hbmem)]
    have h1 := h.1
    omega
  · intro s hs
    have h1 := h.2.1 s hs
    have h2 := hmin s hs
    rw [usub_shift s.number b.number una h2,
        usub_shift nxt b.number una (le_of_lt hbmem)]
    omega
  · refine List.Pairwise.imp_of_mem ?_ h.2.2
    intro a c ha hc hlt
    have h1 := hmin a ha
    have h2 := hmin c hc
    rw [usub_shift a.number b.number una h1, usub_shift c.number b.number una h2]
    omega

theorem parseAckLoop_sublist (sn : Nat) (l : List DataSeg) :
    List.Sublist (parseAckLoop sn l) l := by
  induction l with
  | nil => simp [parseAckLoop]
  | cons seg rest ih =>
      unfold parseAckLoop
      split
      · exact List.sublist_cons_self seg rest
      · split
        · exact List.Sublist.refl _
        · exact List.Sublist.cons₂ seg ih

theorem fastackLoop_map_number (sn : Nat) (l : List DataSeg) :
    (fastackLoop sn l).map (fun s => s.number) = l.map (fun s => s.number) := by
  induction l with
  | nil => rfl
  | cons seg rest ih =>
      unfold fastackLoop
      split
      · rfl
      · split <;> simp [ih]

theorem resendSeg_number (current rxRto resent una : Nat) (isRTC : Bool) (seg : DataSeg) :
    (resendSeg current rxRto resent una isRTC seg).1.number = seg.number := by
  unfold resendSeg
  split_ifs <;> rfl

end KcpCore

theorem u31_lt_u32 : u31 < u32 := by
  unfold u31 u32
  omega

namespace KcpCore

theorem sndWf_append (una nxt : Nat) (buf : List DataSeg) (s : DataSeg)
    (hnum : s.number = nxt) (hsp : usub nxt una + 1 < u31) (h : sndWf una nxt buf) :
    sndWf una ((nxt + 1) % u32) (buf ++ [s]) := by
  have hsucc : usub ((nxt + 1) % u32) una = usub nxt una + 1 :=
    usub_succ nxt una (lt_trans hsp u31_lt_u32)
  refine ⟨?_, ?_, ?_⟩
  · rw [hsucc]
    exact hsp
  · intro t ht
    rcases List.mem_append.mp ht with ht | ht
    · have h1 := h.2.1 t ht
      rw [hsucc]
      omega
    · simp only [List.mem_singleton] at ht
      subst ht
      rw [hsucc, hnum]
      omega
  · rw [List.pairwise_append]
    refine ⟨h.2.2, by simp, ?_⟩
    intro a ha b hb
    simp only [List.mem_singleton] at hb
    subst hb
    rw [hnum]
    exact h.2.1 a ha

theorem pushLoop_sndWf (conv cap current : Nat) (q : List Nat) (buf : List DataSeg)
    (una nxt : Nat) (hspan : usub nxt una + q.length < u31) (h : sndWf una nxt buf) :
    sndWf una (pushLoop conv cap current q buf nxt).2.2
      (pushLoop conv cap current q buf nxt).2.1 ∧
    usub (pushLoop conv cap current q buf nxt).2.2 una ≤ usub nxt una + q.length := by
  induction q generalizing buf nxt with
  | nil =>
      refine ⟨h, ?_⟩
      simp [pushLoop]
  | cons d rest ih =>
      simp only [List.length_cons] at hspan
      unfold pushLoop
      split
      · have hsp1 : usub nxt una + 1 < u31 := by omega
        have hsucc : usub ((nxt + 1) % u32) una = usub nxt una + 1 :=
          usub_succ nxt una (lt_trans hsp1 u31_lt_u32)
        have hnew := sndWf_append una nxt buf
          { conv := conv, number := nxt, timestamp := 0, sendingNext := 0,
            optClose := false, timeout := current, ackSkipped := 0,
            transmit := 0, dataLen := d } rfl hsp1 h
        have hspan' : usub ((nxt + 1) % u32) una + rest.length < u31 := by
          rw [hsucc]
          omega
        have hrec := ih _ _ hspan' hnew
        refine ⟨hrec.1, ?_⟩
        have h2 := hrec.2
        rw [hsucc] at h2
        simp only [List.length_cons]
        omega
      · refine ⟨h, ?_⟩
        simp only [List.length_cons]
        omega

theorem clearSendQueue_wf (k : KCP) (h : k.wf) : (k.clearSendQueue).wf :=
  sndWf_empty _ _ h.1

theorem setState_wf (k : KCP) (s : KState) (h : k.wf) : (k.setState s).wf := by
  cases s
  · exact h
  · exact h
  · exact sndWf_empty _ _ h.1
  · exact h
  · exact h

theorem onPeerClosed_wf (k : KCP) (h : k.wf) : (k.onPeerClosed).wf := by
  unfold KCP.onPeerClosed
  split
  · exact setState_wf _ _ h
  · exact setState_wf _ _ h
  · exact h

theorem onClose_wf (k : KCP) (h : k.wf) : (k.onClose).wf := by
  unfold KCP.onClose
  split
  · exact setState_wf _ _ h
  · exact setState_wf _ _ h
  · exact h

theorem handleOption_wf (k : KCP) (o : Bool) (h : k.wf) : (k.handleOption o).wf := by
  unfold KCP.handleOption
  split
  · exact onPeerClosed_wf k h
  · exact h

theorem termCmdK_wf (k : KCP) (h : k.wf) : (k.termCmd).wf := by
  unfold KCP.termCmd
  split
  · exact setState_wf _ _ h
  · exact setState_wf _ _ h
  · exact setState_wf _ _ h
  · exact setState_wf _ _ h
  · exact h

theorem dumpLoop_snd (fuel : Nat) (k : KCP) :
    (dumpLoop fuel k).snd_una = k.snd_una ∧ (dumpLoop fuel k).snd_nxt = k.snd_nxt ∧
    (dumpLoop fuel k).snd_buf = k.snd_buf := by
  induction fuel generalizing k with
  | zero => exact ⟨rfl, rfl, rfl⟩
  | succ n ih =>
      unfold dumpLoop
      rcases hr : k.rcv_buf.removeFirst with ⟨fst, snd⟩
      cases fst
      · exact ⟨rfl, rfl, rfl⟩
      · exact ih _

theorem dumpReceivingBuf_wf (k : KCP) (h : k.wf) : (k.dumpReceivingBuf).wf := by
  unfold KCP.dumpReceivingBuf
  have hs := dumpLoop_snd k.rcv_buf.size k
  exact wf_congr k _ h hs.1 hs.2.1 hs.2.2

theorem parse_data_wf (k : KCP) (seg : DataSeg) (h : k.wf) : (k.parse_data seg).wf := by
  unfold KCP.parse_data
  split
  · exact h
  · exact dumpReceivingBuf_wf _ h

theorem shrink_buf_wf (k : KCP) (h : k.wf) : (k.shrink_buf).wf := by
  unfold KCP.shrink_buf KCP.wf
  rcases hb : k.snd_buf with _ | ⟨b, rest⟩
  · simp only
    exact sndWf_empty _ _ (by rw [usub_self]; unfold u31; omega)
  · simp only
    have h1 : sndWf k.snd_una k.snd_nxt (b :: rest) := by
      rw [← hb]
      exact h
    rw [← hb]
    have h2 := sndWf_rebase _ _ b rest h1
    rw [hb]
    exact h2

theorem parse_ack_wf (k : KCP) (sn : Nat) (h : k.wf) : (k.parse_ack sn).wf := by
  unfold KCP.parse_ack
  split
  · exact h
  · exact sndWf_sublist _ _ _ _ (parseAckLoop_sublist sn k.snd_buf) h

theorem parse_fastack_wf (k : KCP) (sn : Nat) (h : k.wf) : (k.parse_fastack sn).wf := by
  unfold KCP.parse_fastack
  split
  · exact h
  · exact sndWf_map_number _ _ _ _ (fastackLoop_map_number sn k.snd_buf) h

theorem handleReceivingNext_wf (k : KCP) (rn : Nat) (h : k.wf) :
    (k.handleReceivingNext rn).wf :=
  sndWf_sublist _ _ _ _ (List.dropWhile_sublist _) h

theorem handleSendingNext_wf (k : KCP) (sn : Nat) (h : k.wf) :
    (k.handleSendingNext sn).wf := h

theorem update_ack_wf (k : KCP) (rtt : Nat) (h : k.wf) : (k.update_ack rtt).wf := h

theorem send_wf (k : KCP) (n : Nat) (h : k.wf) : (k.send n).wf := h

end KcpCore

theorem usub_rev (a b c : Nat) (h1 : usub a c < usub b c) (h2 : usub b c < u31) :
    u31 ≤ usub a b := by
  unfold usub u31 u32 at *
  omega

namespace KcpCore

theorem inputAckPairs_wf (pairs : List (Nat × Nat)) (acc : KCP × Option Nat)
    (h : acc.1.wf) : (inputAckPairs acc pairs).1.wf := by
  induction pairs generalizing acc with
  | nil =>
      rcases acc with ⟨k, ma⟩
      exact h
  | cons p rest ih =>
      rcases acc with ⟨k, ma⟩
      rcases p with ⟨ts, sn⟩
      unfold inputAckPairs
      apply ih
      apply parse_ack_wf
      split
      · exact update_ack_wf _ _ h
      · exact h

theorem inputOne_wf (acc : KCP × Option Nat) (seg : ISeg) (h : acc.1.wf) :
    (inputOne acc seg).1.wf := by
  rcases seg with ⟨o, sn, num, ts, dl⟩ | ⟨o, rwin, rn, pairs⟩ | ⟨o, t, rn, sn⟩
  · unfold inputOne
    apply shrink_buf_wf
    have h1 := handleOption_wf acc.1 o h
    have h2 := handleSendingNext_wf (acc.1.handleOption o) sn h1
    exact parse_data_wf _ _ h2
  · unfold inputOne
    apply shrink_buf_wf
    have h1 := handleOption_wf acc.1 o h
    have h2 : (if (acc.1.handleOption o).rmt_wnd < rwin
               then { acc.1.handleOption o with rmt_wnd := rwin }
               else acc.1.handleOption o).wf := by
      split
      · exact h1
      · exact h1
    exact inputAckPairs_wf pairs _ (handleReceivingNext_wf _ _ h2)
  · unfold inputOne
    apply shrink_buf_wf
    have h1 := handleOption_wf acc.1 o h
    have h2 : (if t then (acc.1.handleOption o).termCmd
               else acc.1.handleOption o).wf := by
      split
      · exact termCmdK_wf _ h1
      · exact h1
    exact handleSendingNext_wf _ _ (handleReceivingNext_wf _ _ h2)

theorem input_wf (k : KCP) (segs : List ISeg) (h : k.wf) : (k.input segs).wf := by
  unfold KCP.input
  have hgen : ∀ (l : List ISeg) (acc : KCP × Option Nat), acc.1.wf →
      (l.foldl inputOne acc).1.wf := by
    intro l
    induction l with
    | nil => intro acc hacc; exact hacc
    | cons s rest ih => intro acc hacc; exact ih _ (inputOne_wf acc s hacc)
  have h1 := hgen segs ({ k with lastIncomingTime := k.current }, none) h
  rcases hm : (segs.foldl inputOne ({ k with lastIncomingTime := k.current }, none)).2
    with _ | ma
  · simp only [hm]
    exact h1
  · simp only [hm]
    exact parse_fastack_wf _ _ h1

theorem flushIdleK_snd (k : KCP) :
    (k.flushIdleK).snd_una = k.snd_una ∧ (k.flushIdleK).snd_nxt = k.snd_nxt ∧
    (k.flushIdleK).snd_buf = k.snd_buf ∧ (k.flushIdleK).snd_queue = k.snd_queue := by
  unfold KCP.flushIdleK
  split
  · cases hs : k.state <;> simp [KCP.onClose, KCP.setState, hs]
  · exact ⟨rfl, rfl, rfl, rfl⟩

theorem flushRTCK_snd (k : KCP) :
    (k.flushRTCK).snd_una = k.snd_una ∧ (k.flushRTCK).snd_nxt = k.snd_nxt ∧
    (k.flushRTCK).snd_buf = k.snd_buf ∧ (k.flushRTCK).snd_queue = k.snd_queue := by
  unfold KCP.flushRTCK
  split
  · simp [KCP.setState]
  · exact ⟨rfl, rfl, rfl, rfl⟩

theorem flushAck_snd (k : KCP) :
    (k.flushAck).snd_una = k.snd_una ∧ (k.flushAck).snd_nxt = k.snd_nxt ∧
    (k.flushAck).snd_buf = k.snd_buf ∧ (k.flushAck).snd_queue = k.snd_queue := by
  unfold KCP.flushAck
  rcases h : k.acklist with _ | ⟨p, rest⟩ <;> exact ⟨rfl, rfl, rfl, rfl⟩

theorem flushIdleK_wf (k : KCP) (h : k.wf) : (k.flushIdleK).wf := by
  unfold KCP.flushIdleK
  split
  · exact onClose_wf k h
  · exact h

theorem flushRTCK_wf (k : KCP) (h : k.wf) : (k.flushRTCK).wf := by
  unfold KCP.flushRTCK
  split
  · exact setState_wf _ _ h
  · exact h

theorem flushAck_wf (k : KCP) (h : k.wf) : (k.flushAck).wf := by
  unfold KCP.flushAck
  rcases hl : k.acklist with _ | ⟨p, rest⟩
  · exact h
  · exact h

theorem flushPush_wf (k : KCP) (h : k.wf)
    (hspan : usub k.snd_nxt k.snd_una + k.snd_queue.length < u31) :
    (k.flushPush).wf := by
  unfold KCP.flushPush KCP.wf
  exact (pushLoop_sndWf k.conv k.flushWindowCap k.current k.snd_queue k.snd_buf
    k.snd_una k.snd_nxt hspan h).1

theorem flushData_wf (k : KCP) (resent : Nat) (h : k.wf) : (k.flushData resent).1.wf := by
  unfold KCP.flushData KCP.wf
  apply sndWf_map_number k.snd_una k.snd_nxt k.snd_buf _ ?_ h
  simp only [List.map_map]
  apply List.map_congr_left
  intro s _
  simp only [Function.comp]
  rw [resendSeg_number]

theorem flushPing_wf (k : KCP) (h : k.wf) : (k.flushPing).wf := by
  unfold KCP.flushPing
  split
  · exact h
  · exact h

theorem flushCwnd_wf (k : KCP) (lost : Bool) (h : k.wf) : (k.flushCwnd lost).wf := by
  unfold KCP.flushCwnd
  split
  · exact h
  · exact h

theorem flushMain_wf (k : KCP) (h : k.wf)
    (hspan : usub k.snd_nxt k.snd_una + k.snd_queue.length < u31) :
    (k.flushMain).wf := by
  unfold KCP.flushMain
  have ha := flushAck_wf k h
  have hasnd := flushAck_snd k
  have hspan1 : usub (k.flushAck).snd_nxt (k.flushAck).snd_una
      + (k.flushAck).snd_queue.length < u31 := by
    rw [hasnd.1, hasnd.2.1, hasnd.2.2.2]
    exact hspan
  have hp := flushPush_wf _ ha hspan1
  exact flushCwnd_wf _ _ (flushPing_wf _ (flushData_wf _ _ hp))

theorem flush_wf (k : KCP) (h : k.wf)
    (hspan : usub k.snd_nxt k.snd_una + k.snd_queue.length < u31) : (k.flush).wf := by
  unfold KCP.flush
  have hik := flushIdleK_wf k h
  have hiksnd := flushIdleK_snd k
  split
  · exact h
  · split
    · split
      · exact setState_wf _ _ hik
      · exact hik
    · have hr := flushRTCK_wf _ hik
      have hrsnd := flushRTCK_snd (k.flushIdleK)
      apply flushMain_wf _ hr
      rw [hrsnd.1, hrsnd.2.1, hrsnd.2.2.2, hiksnd.1, hiksnd.2.1, hiksnd.2.2.2]
      exact hspan

theorem NewKCP_wf (conv mtu sw rw sq : Nat) : (NewKCP conv mtu sw rw sq).wf := by
  refine ⟨?_, ?_, ?_⟩
  · show usub 0 0 < u31
    rw [usub_self]
    unfold u31
    omega
  · intro s hs
    simp [NewKCP] at hs
  · simp [NewKCP]

end KcpCore

/-- Claim C3 (counterexample): the claim bounds `snd_nxt` by
`snd_una + snd_wnd`, but the flush caps the push by
`max(snd_una + snd_wnd, rmt_wnd)` and `NewKCP` starts `rmt_wnd` at the
constant 32: with a sending window of 2 and three queued segments, one
flush pushes all three, leaving `snd_nxt = 3` strictly beyond
`snd_una + snd_wnd = 2` in the wrap-around order. -/
theorem C3_counterexample :
    (((KcpCore.NewKCP 1 19 2 4 8).send 3).flush).snd_una = 0 ∧
    (((KcpCore.NewKCP 1 19 2 4 8).send 3).flush).snd_nxt = 3 ∧
    (((KcpCore.NewKCP 1 19 2 4 8).send 3).flush).snd_wnd = 2 ∧
    0 < itimediff (((KcpCore.NewKCP 1 19 2 4 8).send 3).flush).snd_nxt
      ((((KcpCore.NewKCP 1 19 2 4 8).send 3).flush).snd_una
        + (((KcpCore.NewKCP 1 19 2 4 8).send 3).flush).snd_wnd) := by
  refine ⟨by decide, by decide, by decide, by decide⟩

/-- Claim C3 (amended): for every well-formed KCP sender state,
`snd_una ≤ snd_nxt` holds (in 32-bit wrap-around order) and every segment
in the sending buffer has a number in `[snd_una, snd_nxt)`; the
well-formedness is established by `NewKCP` and preserved by every processed
input, every `Send`, and every flush whose in-flight span plus queued
segment count stays under 2^31; but `snd_nxt` is *not* bounded by
`snd_una + snd_wnd` (the flush caps pushes by
`max(snd_una + snd_wnd, rmt_wnd, snd_una + cwnd)` instead, see the
counterexample). -/
theorem C3_sender_window_invariant (k : KcpCore.KCP) (h : k.wf) :
    (0 ≤ itimediff k.snd_nxt k.snd_una ∧
     ∀ s ∈ k.snd_buf, 0 ≤ itimediff s.number k.snd_una ∧
       itimediff s.number k.snd_nxt < 0) ∧
    (∀ conv mtu sw rw sq, (KcpCore.NewKCP conv mtu sw rw sq).wf) ∧
    (∀ segs, (k.input segs).wf) ∧
    (∀ n, (k.send n).wf) ∧
    (usub k.snd_nxt k.snd_una + k.snd_queue.length < u31 → (k.flush).wf) := by
  refine ⟨⟨?_, ?_⟩, KcpCore.NewKCP_wf, fun segs => KcpCore.input_wf k segs h,
    fun n => KcpCore.send_wf k n h, fun hspan => KcpCore.flush_wf k h hspan⟩
  · exact (itimediff_nonneg_iff _ _).mpr h.1
  · intro s hs
    constructor
    · exact (itimediff_nonneg_iff _ _).mpr (lt_trans (h.2.1 s hs) h.1)
    · exact (itimediff_neg_iff _ _).mpr (usub_rev s.number k.snd_nxt k.snd_una
        (h.2.1 s hs) h.1)

/-- Witness for C3: the freshly created KCP state is well-formed, its span
plus queue length is under 2^31, and a flush keeps it well-formed. -/
theorem C3_sender_window_invariant_witness :
    (KcpCore.NewKCP 2 1400 32 32 512).wf ∧
    usub (KcpCore.NewKCP 2 1400 32 32 512).snd_nxt
      (KcpCore.NewKCP 2 1400 32 32 512).snd_una
      + (KcpCore.NewKCP 2 1400 32 32 512).snd_queue.length < u31 ∧
    ((KcpCore.NewKCP 2 1400 32 32 512).flush).wf := by
  have hwf : (KcpCore.NewKCP 2 1400 32 32 512).wf := by
    refine ⟨by decide, by simp [KcpCore.NewKCP], by simp [KcpCore.NewKCP]⟩
  exact ⟨hwf, by decide,
    (C3_sender_window_invariant _ hwf).2.2.2.2 (by decide)⟩

/-- Claim C6: a received Data segment whose number is below `rcv_nxt` or at
or above `rcv_nxt + rcv_wnd` (32-bit wrap-around order) is dropped by
`parse_data`: the whole state — in particular the receiving window ring,
the receiving queue, and `rcv_nxt` — is unchanged. -/
theorem C6_out_of_window_dropped (k : KcpCore.KCP) (seg : KcpCore.DataSeg)
    (h : 0 ≤ itimediff seg.number ((k.rcv_nxt + k.rcv_wnd) % u32) ∨
         itimediff seg.number k.rcv_nxt < 0) :
    k.parse_data seg = k ∧
    (k.parse_data seg).rcv_buf = k.rcv_buf ∧
    (k.parse_data seg).rcv_queue = k.rcv_queue ∧
    (k.parse_data seg).rcv_nxt = k.rcv_nxt := by
  have he : k.parse_data seg = k := by
    unfold KcpCore.KCP.parse_data
    rw [if_pos h]
  exact ⟨he, by rw [he], by rw [he], by rw [he]⟩

/-- Witness for C6: on a fresh state with `rcv_nxt = 0` and `rcv_wnd = 4`,
a segment numbered 7 is at or beyond `rcv_nxt + rcv_wnd` and is dropped
with no state change. -/
theorem C6_out_of_window_dropped_witness :
    (0 ≤ itimediff 7 (((KcpCore.NewKCP 1 100 4 4 8).rcv_nxt
        + (KcpCore.NewKCP 1 100 4 4 8).rcv_wnd) % u32) ∨
     itimediff 7 (KcpCore.NewKCP 1 100 4 4 8).rcv_nxt < 0) ∧
    (KcpCore.NewKCP 1 100 4 4 8).parse_data
      { conv := 1, number := 7, timestamp := 0, sendingNext := 0, optClose := false,
        timeout := 0, ackSkipped := 0, transmit := 0, dataLen := 1 }
      = KcpCore.NewKCP 1 100 4 4 8 := by
  refine ⟨by decide, ?_⟩
  exact (C6_out_of_window_dropped (KcpCore.NewKCP 1 100 4 4 8)
    { conv := 1, number := 7, timestamp := 0, sendingNext := 0, optClose := false,
      timeout := 0, ackSkipped := 0, transmit := 0, dataLen := 1 } (by decide)).1
